import Mathlib

/-!
Verification of `monai/networks/nets/spade_autoencoderkl.py`.

The network-definition code is shallowly embedded:

* Layer construction (`SPADEResBlock.__init__`, `SPADEDecoder.__init__`,
  `SPADEAutoencoderKL.__init__`) is modelled as the assembly of descriptor
  values (`ConvDesc`, `SPADEDesc`, `Block`, ...) mirroring the constructor
  arguments passed to each sub-module in the source.  Python exceptions
  (`ValueError` in the validation block, `IndexError` on list indexing)
  are modelled with `Option`.
* Tensor computation (`forward`, `encode`, `sampling`, `reconstruct`,
  `decode`) is modelled over `Tensor := ℕ → ℝ` (a flattened real-valued
  tensor); the external collaborators (SPADE norm, Convolution,
  SpatialAttentionBlock, Upsample, GroupNorm, Encoder), which live outside
  the sources here, are abstract functions gathered in an `Interp`.
  Element-wise torch primitives used directly by the source
  (`F.silu`, `torch.clamp`, `torch.exp`, `+`, `*`) are modelled exactly.
* Shape behaviour is modelled with `TShape` (batch, channels, per-dimension
  spatial extents) and the standard output-extent formula of a spatial
  convolution.
-/

namespace SpadeAEKL

/-- A flattened real-valued tensor: the index set is left abstract as `ℕ`. -/
abbrev Tensor : Type := ℕ → ℝ

/-- Descriptor of a `Convolution(..., conv_only=True)` sub-module: the
constructor arguments the source passes to the external `Convolution` block. -/
structure ConvDesc where
  spatial_dims : ℕ
  in_channels : ℕ
  out_channels : ℕ
  strides : ℕ
  kernel_size : ℕ
  padding : ℕ
deriving DecidableEq

/-- Descriptor of a `SPADE` normalisation sub-module.  `norm_nc` is an
`Option ℕ` because `SPADEResBlock.__init__` passes its raw `out_channels`
argument (which may be Python `None`) as `norm_nc` for `norm2`. -/
structure SPADEDesc where
  label_nc : ℕ
  norm_nc : Option ℕ
  num_groups : ℕ
  affine : Bool
  eps : ℚ
  hidden_channels : ℕ
  kernel_size : ℕ
  spatial_dims : ℕ
deriving DecidableEq

/-- Descriptor of a `SpatialAttentionBlock` sub-module. -/
structure AttnDesc where
  spatial_dims : ℕ
  num_channels : ℕ
  norm_num_groups : ℕ
  norm_eps : ℚ
deriving DecidableEq

/-- Descriptor of an `nn.GroupNorm` layer. -/
structure GroupNormDesc where
  num_groups : ℕ
  num_channels : ℕ
  eps : ℚ
  affine : Bool
deriving DecidableEq

/-- Descriptor of an `Upsample(mode="nontrainable", interp_mode="nearest",
scale_factor=2.0, post_conv=...)` stage. -/
structure UpsampleDesc where
  spatial_dims : ℕ
  in_channels : ℕ
  out_channels : ℕ
  scale_factor : ℕ
  nearest : Bool
  post_conv : ConvDesc
deriving DecidableEq

/-- The sub-modules a `SPADEResBlock` owns after `__init__` has run:
`self.norm1`, `self.conv1`, `self.norm2`, `self.conv2`, `self.nin_shortcut`
(`none` models `nn.Identity()`), together with the resolved
`self.in_channels` / `self.out_channels` attributes. -/
structure SPADEResBlock where
  in_channels : ℕ
  out_channels : ℕ
  norm1 : SPADEDesc
  conv1 : ConvDesc
  norm2 : SPADEDesc
  conv2 : ConvDesc
  nin_shortcut : Option ConvDesc
deriving DecidableEq

/-- `SPADEResBlock.__init__`.  Field-by-field translation of the source:
`self.out_channels = in_channels if out_channels is None else out_channels`;
`norm1` receives `norm_nc=in_channels`; `norm2` receives the *raw*
`out_channels` argument as `norm_nc`; both convolutions are 3x3, stride 1,
padding 1; the shortcut is a 1x1, stride 1, padding 0 convolution when
`self.in_channels != self.out_channels` and `nn.Identity()` otherwise. -/
def SPADEResBlock.init (spatial_dims in_channels norm_num_groups : ℕ) (norm_eps : ℚ)
    (out_channels : Option ℕ) (label_nc spade_intermediate_channels : ℕ) : SPADEResBlock :=
  let outc := out_channels.getD in_channels
  { in_channels := in_channels
    out_channels := outc
    norm1 := ⟨label_nc, some in_channels, norm_num_groups, false, norm_eps,
              spade_intermediate_channels, 3, spatial_dims⟩
    conv1 := ⟨spatial_dims, in_channels, outc, 1, 3, 1⟩
    norm2 := ⟨label_nc, out_channels, norm_num_groups, false, norm_eps,
              spade_intermediate_channels, 3, spatial_dims⟩
    conv2 := ⟨spatial_dims, outc, outc, 1, 3, 1⟩
    nin_shortcut :=
      if in_channels ≠ outc then some ⟨spatial_dims, in_channels, outc, 1, 1, 0⟩ else none }

/-- One element of the heterogeneous `nn.ModuleList` assembled by
`SPADEDecoder.__init__`.  The constructor tag plays the role of the
`isinstance(block, SPADEResBlock)` test in `SPADEDecoder.forward`. -/
inductive Block where
  | conv (c : ConvDesc)
  | spadeRes (b : SPADEResBlock)
  | attn (a : AttnDesc)
  | upsample (u : UpsampleDesc)
  | groupNorm (g : GroupNormDesc)
deriving DecidableEq

/-- The parameters of `SPADEDecoder.__init__` that every appended sub-module
shares. -/
structure DecoderParams where
  spatial_dims : ℕ
  norm_num_groups : ℕ
  norm_eps : ℚ
  label_nc : ℕ
  spade_intermediate_channels : ℕ
deriving DecidableEq

/-- The `SPADEResBlock(...)` call appearing in `SPADEDecoder.__init__`
(always with an explicit integer `out_channels`). -/
def resBlockAt (P : DecoderParams) (cin cout : ℕ) : Block :=
  Block.spadeRes (SPADEResBlock.init P.spatial_dims cin P.norm_num_groups P.norm_eps
    (some cout) P.label_nc P.spade_intermediate_channels)

/-- The `SpatialAttentionBlock(...)` call appearing in `SPADEDecoder.__init__`. -/
def attnAt (P : DecoderParams) (c : ℕ) : Block :=
  Block.attn ⟨P.spatial_dims, c, P.norm_num_groups, P.norm_eps⟩

/-- A 3x3, stride-1, padding-1 `Convolution(..., conv_only=True)`. -/
def conv3At (P : DecoderParams) (cin cout : ℕ) : Block :=
  Block.conv ⟨P.spatial_dims, cin, cout, 1, 3, 1⟩

/-- The `Upsample(mode="nontrainable", interp_mode="nearest", scale_factor=2.0,
post_conv=Convolution 3x3 same-channel)` stage of `SPADEDecoder.__init__`. -/
def upsampleAt (P : DecoderParams) (c : ℕ) : Block :=
  Block.upsample ⟨P.spatial_dims, c, c, 2, true, ⟨P.spatial_dims, c, c, 1, 3, 1⟩⟩

/-- The inner `for _ in range(reversed_num_res_blocks[i])` loop of
`SPADEDecoder.__init__`: append a `SPADEResBlock(block_in_ch, block_out_ch)`,
set `block_in_ch = block_out_ch`, and append a `SpatialAttentionBlock` when
the (reversed) attention flag of the level is set. -/
def resLoop (P : DecoderParams) (cin cout : ℕ) (attFlag : Bool) : ℕ → List Block
  | 0 => []
  | n + 1 =>
    resBlockAt P cin cout :: ((if attFlag then [attnAt P cout] else [])
      ++ resLoop P cout cout attFlag n)

/-- The outer `for i in range(len(reversed_block_out_channels))` loop of
`SPADEDecoder.__init__`.  The first list is the remaining reversed channel
schedule, the second and third are the remaining reversed attention flags and
res-block counts (Python indexing `reversed_attention_levels[i]` /
`reversed_num_res_blocks[i]` raises `IndexError`, hence `Option`), and the
`ℕ` argument is the running `block_out_ch` variable.  Returns the appended
blocks together with the final value of `block_in_ch` (used afterwards by the
terminal `nn.GroupNorm` and convolution). -/
def buildLevels (P : DecoderParams) :
    List ℕ → List Bool → List ℕ → ℕ → Option (List Block × ℕ)
  | [], _, _, bout => some ([], bout)
  | c :: rest, revA, revN, bout => do
    let a ← revA.head?
    let n ← revN.head?
    let lvl := resLoop P bout c a n
    let bic := if n = 0 then bout else c
    match rest with
    | [] => some (lvl, bic)
    | _ :: _ => do
      let (rb, fw) ← buildLevels P rest revA.tail revN.tail c
      some (lvl ++ upsampleAt P bic :: rb, fw)

/-- `SPADEDecoder.__init__`: the full `self.blocks` list.  Mirrors the source:
initial 3x3 convolution to `reversed(channels)[0]`; optional non-local triple
(`SPADEResBlock`, `SpatialAttentionBlock`, `SPADEResBlock`); the per-level
loop; terminal `nn.GroupNorm(affine=True)` and 3x3 convolution to
`out_channels`, both at the final `block_in_ch`.  `none` models the
`IndexError` raised by `reversed_block_out_channels[0]` (or by the per-level
indexing) when the schedules are empty or too short. -/
def SPADEDecoder.build (P : DecoderParams) (channels : List ℕ)
    (in_channels out_channels : ℕ) (num_res_blocks : List ℕ)
    (attention_levels : List Bool) (with_nonlocal_attn : Bool) :
    Option (List Block) := do
  let rev := channels.reverse
  let c0 ← rev.head?
  let nonlocalBlocks :=
    if with_nonlocal_attn then [resBlockAt P c0 c0, attnAt P c0, resBlockAt P c0 c0] else []
  let (lvls, fw) ← buildLevels P rev attention_levels.reverse num_res_blocks.reverse c0
  some (conv3At P in_channels c0 :: (nonlocalBlocks ++ lvls
    ++ [Block.groupNorm ⟨P.norm_num_groups, fw, P.norm_eps, true⟩, conv3At P fw out_channels]))

/-- Following the claim's words: level `i` consists of `reversed(num_res_blocks)[i]`
`SPADEResBlock`s at width `reversed(channels)[i]`, where only the first one
(iteration `j = 0`) changes width from the previous level's width, and each is
immediately followed by a `SpatialAttentionBlock` iff the level's (reversed)
attention flag is set. -/
def levelBlocks (P : DecoderParams) (prev w : ℕ) (attFlag : Bool) (n : ℕ) : List Block :=
  ((List.range n).map (fun j =>
    resBlockAt P (if j = 0 then prev else w) w
      :: (if attFlag then [attnAt P w] else []))).flatten

/-- Following the claim's words: the per-level stages, driven by the zipped
reversed schedules `(width, attention flag, res-block count)`; the running `ℕ`
is the width assigned to the previous level (`reversed(channels)[0]` for the
first level).  Every level except the last ends with an `Upsample` stage at the
width the level actually reached (its assigned width when it has at least one
res block, the previous level's width otherwise). -/
def claimedLevels (P : DecoderParams) : List (ℕ × Bool × ℕ) → ℕ → List Block
  | [], _ => []
  | (c, a, n) :: rest, w =>
    levelBlocks P w c a n
      ++ (if rest = [] then [] else [upsampleAt P (if n = 0 then w else c)])
      ++ claimedLevels P rest c

/-- The width at which the terminal `GroupNorm` and convolution operate: the
width reached by the last level. -/
def claimedFinalWidth : List (ℕ × Bool × ℕ) → ℕ → ℕ
  | [], w => w
  | [(c, _, n)], w => if n = 0 then w else c
  | (c, _, _) :: e :: rest, _ => claimedFinalWidth (e :: rest) c

/-- Zip the three reversed schedules into one list of per-level data. -/
def zip3 (cs : List ℕ) (as : List Bool) (ns : List ℕ) : List (ℕ × Bool × ℕ) :=
  cs.zip (as.zip ns)

/-- The block sequence claimed for `SPADEDecoder`: an initial 3x3 stride-1
convolution from `in_channels` to `reversed(channels)[0]`; if
`with_nonlocal_attn`, a `SPADEResBlock`, a `SpatialAttentionBlock` and a
`SPADEResBlock` all at width `reversed(channels)[0]`; the per-level stages in
reversed schedule order; finally an affine `GroupNorm` and a 3x3 convolution
to `out_channels`. -/
def claimedDecoderBlocks (P : DecoderParams) (channels : List ℕ)
    (in_channels out_channels : ℕ) (num_res_blocks : List ℕ)
    (attention_levels : List Bool) (with_nonlocal_attn : Bool) : List Block :=
  let rev := channels.reverse
  let c0 := rev.headD 0
  let lst := zip3 rev attention_levels.reverse num_res_blocks.reverse
  conv3At P in_channels c0
    :: ((if with_nonlocal_attn then [resBlockAt P c0 c0, attnAt P c0, resBlockAt P c0 c0]
          else [])
      ++ claimedLevels P lst c0
      ++ [Block.groupNorm ⟨P.norm_num_groups, claimedFinalWidth lst c0, P.norm_eps, true⟩,
          conv3At P (claimedFinalWidth lst c0) out_channels])

/-- The `in_channels` of the `Upsample` stages of a block list, in order. -/
def upsampleChannels (bs : List Block) : List ℕ :=
  bs.filterMap fun b => match b with
    | Block.upsample u => some u.in_channels
    | _ => none

/-- The `num_channels` of the `GroupNorm` layers of a block list, in order. -/
def groupNormWidths (bs : List Block) : List ℕ :=
  bs.filterMap fun b => match b with
    | Block.groupNorm g => some g.num_channels
    | _ => none

theorem resLoop_eq_levelBlocks (P : DecoderParams) (a : Bool) :
    ∀ (n prev w : ℕ), resLoop P prev w a n = levelBlocks P prev w a n := by
  intro n
  induction n with
  | zero => intro prev w; rfl
  | succ k ih =>
    intro prev w
    have hmap : List.map (fun j => resBlockAt P (if j = 0 then prev else w) w
          :: (if a then [attnAt P w] else [])) ((List.range k).map Nat.succ)
        = List.map (fun j => resBlockAt P (if j = 0 then w else w) w
          :: (if a then [attnAt P w] else [])) (List.range k) := by
      rw [List.map_map]
      apply List.map_congr_left
      intro j _
      simp
    rw [resLoop, ih w w, levelBlocks, levelBlocks, List.range_succ_eq_map, List.map_cons,
      List.flatten_cons, hmap]
    simp

theorem buildLevels_eq_claimedLevels (P : DecoderParams) :
    ∀ (revC : List ℕ) (revA : List Bool) (revN : List ℕ) (w : ℕ),
      revC ≠ [] → revA.length = revC.length → revN.length = revC.length →
      buildLevels P revC revA revN w
        = some (claimedLevels P (zip3 revC revA revN) w,
                claimedFinalWidth (zip3 revC revA revN) w) := by
  intro revC
  induction revC with
  | nil => intro revA revN w h _ _; exact absurd rfl h
  | cons c rest ih =>
    intro revA revN w _ ha hn
    cases revA with
    | nil => simp at ha
    | cons a as =>
    cases revN with
    | nil => simp at hn
    | cons n ns =>
    have ha2 : as.length = rest.length := by simpa using ha
    have hn2 : ns.length = rest.length := by simpa using hn
    cases rest with
    | nil =>
      have hsz : as = [] := List.length_eq_zero.mp ha2
      have hsz2 : ns = [] := List.length_eq_zero.mp hn2
      subst hsz hsz2
      simp [buildLevels, zip3, claimedLevels, claimedFinalWidth,
        resLoop_eq_levelBlocks]
    | cons r rs =>
      cases as with
      | nil => simp at ha2
      | cons a2 as2 =>
      cases ns with
      | nil => simp at hn2
      | cons n2 ns2 =>
      have hrec := ih (a2 :: as2) (n2 :: ns2) c (by simp) ha2 hn2
      have hstep : buildLevels P (c :: r :: rs) (a :: a2 :: as2) (n :: n2 :: ns2) w
          = (buildLevels P (r :: rs) (a2 :: as2) (n2 :: ns2) c).bind
              (fun p => some (resLoop P w c a n
                ++ upsampleAt P (if n = 0 then w else c) :: p.1, p.2)) := rfl
      rw [hstep, hrec]
      rw [resLoop_eq_levelBlocks]
      simp [zip3, claimedLevels, claimedFinalWidth, List.zip]

theorem build_eq_claimed (P : DecoderParams) (channels : List ℕ) (ic oc : ℕ)
    (nrb : List ℕ) (attn : List Bool) (wNL : Bool)
    (hne : channels ≠ []) (ha : attn.length = channels.length)
    (hn : nrb.length = channels.length) :
    SPADEDecoder.build P channels ic oc nrb attn wNL
      = some (claimedDecoderBlocks P channels ic oc nrb attn wNL) := by
  have hrev : channels.reverse ≠ [] := by simpa using hne
  obtain ⟨c0, rest, hr⟩ : ∃ c0 rest, channels.reverse = c0 :: rest := by
    cases h : channels.reverse with
    | nil => exact absurd h hrev
    | cons x xs => exact ⟨x, xs, rfl⟩
  have ha2 : attn.reverse.length = channels.reverse.length := by simp [ha]
  have hn2 : nrb.reverse.length = channels.reverse.length := by simp [hn]
  have hbl := buildLevels_eq_claimedLevels P channels.reverse attn.reverse nrb.reverse c0
    hrev ha2 hn2
  rw [hr] at hbl
  simp [SPADEDecoder.build, claimedDecoderBlocks, hr, hbl, zip3]

/-- C1: for every construction of `SPADEDecoder` (nonempty channel schedule,
attention schedule and per-level res-block counts of matching length), the
assembled block sequence is exactly the claimed one: initial 3x3 stride-1
convolution from `in_channels` to `reversed(channels)[0]`; if
`with_nonlocal_attn` a `SPADEResBlock`, a `SpatialAttentionBlock` and a
`SPADEResBlock` at width `reversed(channels)[0]`; per level `i` (schedules
reversed) `reversed(num_res_blocks)[i]` `SPADEResBlock`s of which only the
first changes width from the previous level's width to `reversed(channels)[i]`,
each followed by a `SpatialAttentionBlock` iff `reversed(attention_levels)[i]`,
plus, iff `i` is not last, a nearest-neighbour scale-2 `Upsample` with a
same-channel 3x3 post-convolution; finally an affine `GroupNorm` and a 3x3
convolution to `out_channels`.  In particular a decoder built with channel
schedule `[32, 64, 64, 64]` reaches intermediate widths 64, 64, 64 at its
three upsampling stages and width 32 at its terminal stage. -/
theorem SPADEDecoder_build_spec (P : DecoderParams) (channels : List ℕ) (ic oc : ℕ)
    (nrb : List ℕ) (attn : List Bool) (wNL : Bool)
    (hne : channels ≠ []) (ha : attn.length = channels.length)
    (hn : nrb.length = channels.length) :
    SPADEDecoder.build P channels ic oc nrb attn wNL
      = some (claimedDecoderBlocks P channels ic oc nrb attn wNL)
    ∧ (SPADEDecoder.build ⟨2, 32, 1/1000000, 2, 128⟩ [32, 64, 64, 64] 3 1 [2, 2, 2, 2]
          [false, false, false, false] false).map
          (fun bs => (upsampleChannels bs, groupNormWidths bs))
        = some ([64, 64, 64], [32]) :=
  ⟨build_eq_claimed P channels ic oc nrb attn wNL hne ha hn, by decide⟩

/-- Witness for C1 at a concrete configuration. -/
theorem SPADEDecoder_build_spec_witness :
    SPADEDecoder.build ⟨2, 32, 1/1000000, 2, 128⟩ [32, 64] 3 1 [2, 2] [false, true] true
      = some (claimedDecoderBlocks ⟨2, 32, 1/1000000, 2, 128⟩ [32, 64] 3 1 [2, 2]
          [false, true] true) :=
  (SPADEDecoder_build_spec ⟨2, 32, 1/1000000, 2, 128⟩ [32, 64] 3 1 [2, 2] [false, true] true
    (by decide) (by decide) (by decide)).1

/-- `torch.sigmoid` on one scalar. -/
noncomputable def sigmoid (x : ℝ) : ℝ := 1 / (1 + Real.exp (-x))

/-- `F.silu` applied element-wise: `silu(x) = x * sigmoid(x)`. -/
noncomputable def silu (t : Tensor) : Tensor := fun i => t i * sigmoid (t i)

/-- `torch.clamp(v, lo, hi)` on one scalar. -/
def clampScalar (v lo hi : ℝ) : ℝ := min (max v lo) hi

/-- Abstract semantics of the external collaborators (SPADE normalisation,
Convolution, SpatialAttentionBlock, Upsample, GroupNorm), which are not part
of the sources here: each descriptor is interpreted as an arbitrary tensor
transform.  `spade` additionally receives the segmentation tensor. -/
structure Interp where
  spade : SPADEDesc → Tensor → Tensor → Tensor
  conv : ConvDesc → Tensor → Tensor
  attn : AttnDesc → Tensor → Tensor
  upsample : UpsampleDesc → Tensor → Tensor
  groupNorm : GroupNormDesc → Tensor → Tensor

/-- Application of `self.nin_shortcut`: the stored 1x1 convolution when
present, `nn.Identity()` otherwise. -/
noncomputable def applyShortcut (I : Interp) (sc : Option ConvDesc) (x : Tensor) : Tensor :=
  match sc with
  | some c => I.conv c x
  | none => x

/-- `SPADEResBlock.forward`, line by line:
`h = norm1(x, seg)`; `h = silu(h)`; `h = conv1(h)`; `h = norm2(h, seg)`;
`h = silu(h)`; `h = conv2(h)`; `x = nin_shortcut(x)` (`nn.Identity` when the
shortcut is absent); return `x + h`. -/
noncomputable def SPADEResBlock.forward (I : Interp) (b : SPADEResBlock)
    (x seg : Tensor) : Tensor :=
  let h := x
  let h := I.spade b.norm1 h seg
  let h := silu h
  let h := I.conv b.conv1 h
  let h := I.spade b.norm2 h seg
  let h := silu h
  let h := I.conv b.conv2 h
  let x := applyShortcut I b.nin_shortcut x
  fun i => x i + h i

/-- The body of the loop in `SPADEDecoder.forward`: a block is invoked with
`(x, seg)` when it is a `SPADEResBlock` (the `isinstance` test) and with `x`
alone otherwise. -/
noncomputable def applyBlock (I : Interp) (b : Block) (x seg : Tensor) : Tensor :=
  match b with
  | Block.spadeRes r => r.forward I x seg
  | Block.conv c => I.conv c x
  | Block.attn a => I.attn a x
  | Block.upsample u => I.upsample u x
  | Block.groupNorm g => I.groupNorm g x

/-- `SPADEDecoder.forward`: apply every block of the assembled sequence in
order. -/
noncomputable def SPADEDecoder.forward (I : Interp) (blocks : List Block)
    (x seg : Tensor) : Tensor :=
  blocks.foldl (fun h b => applyBlock I b h seg) x

/-- C2: `SPADEResBlock.forward` returns
`shortcut(x) + conv2(silu(norm2(conv1(silu(norm1(x, seg))), seg)))`, where the
shortcut is the identity when the input width equals the (resolved) output
width and a 1x1 stride-1 convolution projecting `Cin` to `Cout` otherwise, and
`silu` is SiLU, `t * sigmoid(t)` with `sigmoid(t) = 1 / (1 + exp(-t))`,
applied element-wise after each SPADE normalisation and before each
convolution. -/
theorem SPADEResBlock_forward_spec (I : Interp) (sd ic g : ℕ) (eps : ℚ)
    (oc : Option ℕ) (lnc hid : ℕ) (x seg : Tensor) :
    ((SPADEResBlock.init sd ic g eps oc lnc hid).forward I x seg
      = fun i =>
        applyShortcut I (SPADEResBlock.init sd ic g eps oc lnc hid).nin_shortcut x i
          + I.conv (SPADEResBlock.init sd ic g eps oc lnc hid).conv2
              (silu (I.spade (SPADEResBlock.init sd ic g eps oc lnc hid).norm2
                (I.conv (SPADEResBlock.init sd ic g eps oc lnc hid).conv1
                  (silu (I.spade (SPADEResBlock.init sd ic g eps oc lnc hid).norm1 x seg)))
                seg)) i)
    ∧ (ic = oc.getD ic →
        applyShortcut I (SPADEResBlock.init sd ic g eps oc lnc hid).nin_shortcut x = x)
    ∧ (ic ≠ oc.getD ic →
        applyShortcut I (SPADEResBlock.init sd ic g eps oc lnc hid).nin_shortcut x
          = I.conv ⟨sd, ic, oc.getD ic, 1, 1, 0⟩ x)
    ∧ (∀ (t : Tensor) (j : ℕ), silu t j = t j * (1 / (1 + Real.exp (-(t j)))))
    ∧ (ic = oc.getD ic ↔ (SPADEResBlock.init sd ic g eps oc lnc hid).nin_shortcut = none) := by
  have hsc : (SPADEResBlock.init sd ic g eps oc lnc hid).nin_shortcut
      = (if ic ≠ oc.getD ic then some (⟨sd, ic, oc.getD ic, 1, 1, 0⟩ : ConvDesc) else none) :=
    rfl
  refine ⟨rfl, ?_, ?_, fun t j => rfl, ?_⟩
  · intro h
    rw [hsc, if_neg (not_not_intro h)]
    rfl
  · intro h
    rw [hsc, if_pos h]
    rfl
  · rw [hsc]
    by_cases h : ic = oc.getD ic
    · rw [if_neg (not_not_intro h)]
      exact ⟨fun _ => rfl, fun _ => h⟩
    · rw [if_pos h]
      exact ⟨fun hcontr => absurd hcontr h, fun hcontr => Option.noConfusion hcontr⟩

/-- C7: `SPADEDecoder.forward` applies the assembled modules in order, and a
module receives the segmentation tensor if and only if it is a
`SPADEResBlock`; every other module kind is applied to `x` alone, so its
output does not depend on `seg`. -/
theorem SPADEDecoder_forward_dispatch (I : Interp) (b : Block) (bs : List Block)
    (x seg segAlt : Tensor) :
    SPADEDecoder.forward I [] x seg = x
    ∧ SPADEDecoder.forward I (b :: bs) x seg
        = SPADEDecoder.forward I bs (applyBlock I b x seg) seg
    ∧ (∀ r : SPADEResBlock, applyBlock I (Block.spadeRes r) x seg
        = SPADEResBlock.forward I r x seg)
    ∧ ((∀ r : SPADEResBlock, b ≠ Block.spadeRes r) →
        applyBlock I b x seg = applyBlock I b x segAlt) := by
  refine ⟨rfl, rfl, fun r => rfl, ?_⟩
  intro h
  cases b with
  | spadeRes r => exact absurd rfl (h r)
  | conv c => rfl
  | attn a => rfl
  | upsample u => rfl
  | groupNorm g => rfl

/-- A trivial interpretation of the external collaborators, used to witness
the dispatch theorem at a concrete input. -/
def interpId : Interp :=
  ⟨fun _ x _ => x, fun _ x => x, fun _ x => x, fun _ x => x, fun _ x => x⟩

/-- Witness for C7 at a concrete block and inputs. -/
theorem SPADEDecoder_forward_dispatch_witness :
    applyBlock interpId (Block.groupNorm ⟨32, 64, 0, true⟩) (fun _ => 0) (fun _ => 1)
      = applyBlock interpId (Block.groupNorm ⟨32, 64, 0, true⟩) (fun _ => 0) (fun _ => 2) :=
  (SPADEDecoder_forward_dispatch interpId (Block.groupNorm ⟨32, 64, 0, true⟩) []
      (fun _ => 0) (fun _ => 1) (fun _ => 2)).2.2.2
    (fun _ h => Block.noConfusion h)

/-- Witness for C2 at a concrete input with a channel-changing block. -/
theorem SPADEResBlock_forward_spec_witness :
    applyShortcut interpId (SPADEResBlock.init 2 3 1 0 (some 5) 2 128).nin_shortcut (fun _ => 0)
      = interpId.conv ⟨2, 3, 5, 1, 1, 0⟩ (fun _ => 0) :=
  (SPADEResBlock_forward_spec interpId 2 3 1 0 (some 5) 2 128 (fun _ => 0) (fun _ => 0)).2.2.1
    (by decide)

/-- The sub-modules of `SPADEAutoencoderKL` seen as tensor transforms: the
`Encoder` (external to the sources here), the three 1x1 quantisation
convolutions, and the `SPADEDecoder` (whose transform takes the segmentation
tensor as second argument). -/
structure SPADEAutoencoderKL where
  encoder : Tensor → Tensor
  quant_conv_mu : Tensor → Tensor
  quant_conv_log_sigma : Tensor → Tensor
  post_quant_conv : Tensor → Tensor
  decoder : Tensor → Tensor → Tensor

/-- `SPADEAutoencoderKL.encode`, line by line: `h = encoder(x)`;
`z_mu = quant_conv_mu(h)`; `z_log_var = quant_conv_log_sigma(h)`;
`z_log_var = clamp(z_log_var, -30.0, 20.0)`; `z_sigma = exp(z_log_var / 2)`;
return `(z_mu, z_sigma)`. -/
noncomputable def SPADEAutoencoderKL.encode (m : SPADEAutoencoderKL) (x : Tensor) :
    Tensor × Tensor :=
  let h := m.encoder x
  let z_mu := m.quant_conv_mu h
  let z_log_var := m.quant_conv_log_sigma h
  let z_log_var := fun i => clampScalar (z_log_var i) (-30) 20
  let z_sigma := fun i => Real.exp (z_log_var i / 2)
  (z_mu, z_sigma)

/-- `SPADEAutoencoderKL.sampling`: `eps` is the standard-normal draw
`torch.randn_like(z_sigma)`, passed explicitly; returns
`z_vae = z_mu + eps * z_sigma` element-wise. -/
def SPADEAutoencoderKL.sampling (_ : SPADEAutoencoderKL) (z_mu z_sigma eps : Tensor) :
    Tensor :=
  fun i => z_mu i + eps i * z_sigma i

/-- `SPADEAutoencoderKL.decode`: `z = post_quant_conv(z)`;
`dec = decoder(z, seg)`. -/
noncomputable def SPADEAutoencoderKL.decode (m : SPADEAutoencoderKL) (z seg : Tensor) :
    Tensor :=
  m.decoder (m.post_quant_conv z) seg

/-- `SPADEAutoencoderKL.reconstruct`: `z_mu, _ = encode(x)`;
`reconstruction = decode(z_mu, seg)`.  The body contains no call to
`sampling` and consumes no random draw. -/
noncomputable def SPADEAutoencoderKL.reconstruct (m : SPADEAutoencoderKL)
    (x seg : Tensor) : Tensor :=
  let z_mu := (m.encode x).1
  m.decode z_mu seg

/-- `SPADEAutoencoderKL.forward`: encode, sample (with the explicit noise
draw `eps`), decode; returns `(reconstruction, z_mu, z_sigma)`. -/
noncomputable def SPADEAutoencoderKL.forward (m : SPADEAutoencoderKL)
    (x seg eps : Tensor) : Tensor × Tensor × Tensor :=
  let p := m.encode x
  let z := m.sampling p.1 p.2 eps
  (m.decode z seg, p.1, p.2)

/-- C4: `encode` applies the two quantisation convolutions to the same
encoder output, clamps the raw log-variance to `[-30, 20]` (a value outside
the interval becomes exactly the nearer boundary, a value inside is
unchanged) and returns `sigma = exp(clamped / 2)`; hence every component of
`sigma` lies in `[exp(-15), exp(10)]` and is strictly positive. -/
theorem SPADEAutoencoderKL_encode_spec (m : SPADEAutoencoderKL) (x : Tensor) (i : ℕ) :
    (m.encode x).1 = m.quant_conv_mu (m.encoder x)
    ∧ (m.encode x).2 i
        = Real.exp (clampScalar (m.quant_conv_log_sigma (m.encoder x) i) (-30) 20 / 2)
    ∧ Real.exp (-15) ≤ (m.encode x).2 i
    ∧ (m.encode x).2 i ≤ Real.exp 10
    ∧ 0 < (m.encode x).2 i
    ∧ (m.quant_conv_log_sigma (m.encoder x) i < -30 →
        clampScalar (m.quant_conv_log_sigma (m.encoder x) i) (-30) 20 = -30)
    ∧ (20 < m.quant_conv_log_sigma (m.encoder x) i →
        clampScalar (m.quant_conv_log_sigma (m.encoder x) i) (-30) 20 = 20)
    ∧ (-30 ≤ m.quant_conv_log_sigma (m.encoder x) i →
        m.quant_conv_log_sigma (m.encoder x) i ≤ 20 →
        clampScalar (m.quant_conv_log_sigma (m.encoder x) i) (-30) 20
          = m.quant_conv_log_sigma (m.encoder x) i) := by
  set v := m.quant_conv_log_sigma (m.encoder x) i with hv
  have hlo : (-30 : ℝ) ≤ clampScalar v (-30) 20 :=
    le_min (le_max_right v (-30)) (by norm_num)
  have hhi : clampScalar v (-30) 20 ≤ 20 := min_le_right _ _
  refine ⟨rfl, rfl, ?_, ?_, Real.exp_pos _, ?_, ?_, ?_⟩
  · exact Real.exp_le_exp.mpr (by linarith)
  · exact Real.exp_le_exp.mpr (by linarith)
  · intro h
    have h1 : max v (-30) = -30 := max_eq_right h.le
    rw [clampScalar, h1]
    norm_num
  · intro h
    have h1 : (20 : ℝ) ≤ max v (-30) := le_max_of_le_left h.le
    exact min_eq_right h1
  · intro h1 h2
    rw [clampScalar, max_eq_left h1]
    exact min_eq_left h2

/-- Witness for C4: with a model whose raw log-variance is constantly `-40`
(below the lower clamp boundary), `sigma` is exactly `exp(-15)`. -/
theorem SPADEAutoencoderKL_encode_spec_witness :
    ((SPADEAutoencoderKL.mk (fun x => x) (fun x => x) (fun _ _ => (-40 : ℝ)) (fun x => x)
        (fun z _ => z)).encode (fun _ => 0)).2 0 = Real.exp (-15) := by
  have h := SPADEAutoencoderKL_encode_spec
    (SPADEAutoencoderKL.mk (fun x => x) (fun x => x) (fun _ _ => (-40 : ℝ)) (fun x => x)
      (fun z _ => z)) (fun _ => 0) 0
  have hclamp := h.2.2.2.2.2.1 (by norm_num)
  rw [h.2.1, hclamp]
  norm_num

/-- C5: `sampling` computes `mean + noise * sigma` element-wise, for every
mean tensor and every noise draw; when `sigma` is filled with zeros the
result is exactly `mean`. -/
theorem SPADEAutoencoderKL_sampling_spec (m : SPADEAutoencoderKL)
    (z_mu z_sigma eps : Tensor) :
    m.sampling z_mu z_sigma eps = (fun i => z_mu i + eps i * z_sigma i)
    ∧ ((∀ i, z_sigma i = 0) → m.sampling z_mu z_sigma eps = z_mu) := by
  refine ⟨rfl, ?_⟩
  intro h
  funext i
  simp [SPADEAutoencoderKL.sampling, h i]

/-- Witness for C5: zero sigma yields exactly the mean. -/
theorem SPADEAutoencoderKL_sampling_spec_witness :
    (SPADEAutoencoderKL.mk (fun x => x) (fun x => x) (fun x => x) (fun x => x)
        (fun z _ => z)).sampling (fun _ => 7) (fun _ => 0) (fun _ => 3) = (fun _ => 7) :=
  (SPADEAutoencoderKL_sampling_spec _ (fun _ => 7) (fun _ => 0) (fun _ => 3)).2
    (fun _ => rfl)

/-- C6: `reconstruct(x, seg)` equals `decode` applied to the mean component
of `encode(x)`, and unfolds to a computation through the mean path only
(`decoder ∘ post_quant_conv ∘ quant_conv_mu ∘ encoder`): the sigma component
and the sampling operation do not occur, and equal inputs give equal
results. -/
theorem SPADEAutoencoderKL_reconstruct_spec (m : SPADEAutoencoderKL) (x seg : Tensor) :
    m.reconstruct x seg = m.decode (m.encode x).1 seg
    ∧ m.reconstruct x seg = m.decoder (m.post_quant_conv (m.quant_conv_mu (m.encoder x))) seg
    ∧ (∀ x2 seg2, x2 = x → seg2 = seg → m.reconstruct x2 seg2 = m.reconstruct x seg) := by
  exact ⟨rfl, rfl, fun x2 seg2 hx hs => by rw [hx, hs]⟩

/-- Witness for C6 at concrete inputs. -/
theorem SPADEAutoencoderKL_reconstruct_spec_witness :
    (SPADEAutoencoderKL.mk (fun x => x) (fun x => x) (fun x => x) (fun x => x)
        (fun z _ => z)).reconstruct (fun _ => 1) (fun _ => 2)
      = (SPADEAutoencoderKL.mk (fun x => x) (fun x => x) (fun x => x) (fun x => x)
        (fun z _ => z)).reconstruct (fun _ => 1) (fun _ => 2) :=
  (SPADEAutoencoderKL_reconstruct_spec _ (fun _ => 1) (fun _ => 2)).2.2
    (fun _ => 1) (fun _ => 2) rfl rfl

/-- C8 counterexample: the claim says a *zero or absent* `out_channels`
falls back to `in_channels`; but `self.out_channels = in_channels if
out_channels is None else out_channels` only falls back for `None`.  With
`in_channels = 32` and `out_channels = 0` the resolved output width is `0`,
not `32`, and the shortcut is a projecting 1x1 convolution, not the
identity. -/
theorem SPADEResBlock_zero_out_channels_cex :
    (SPADEResBlock.init 2 32 32 (1/1000000) (some 0) 2 128).out_channels = 0
    ∧ (SPADEResBlock.init 2 32 32 (1/1000000) (some 0) 2 128).out_channels ≠ 32
    ∧ (SPADEResBlock.init 2 32 32 (1/1000000) (some 0) 2 128).nin_shortcut
        = some ⟨2, 32, 0, 1, 1, 0⟩ := by
  refine ⟨rfl, by decide, rfl⟩

/-- C8 (amended): constructing a `SPADEResBlock` with an *absent* (`None`)
`out_channels` falls back to `in_channels`: the resolved output width equals
the input width, both convolutions keep that width, and the shortcut is the
identity.  (A zero `out_channels` is used as given.) -/
theorem SPADEResBlock_none_out_channels_fallback (sd ic g : ℕ) (eps : ℚ) (lnc hid : ℕ) :
    (SPADEResBlock.init sd ic g eps none lnc hid).out_channels = ic
    ∧ (SPADEResBlock.init sd ic g eps none lnc hid).nin_shortcut = none
    ∧ (SPADEResBlock.init sd ic g eps none lnc hid).conv1.out_channels = ic
    ∧ (SPADEResBlock.init sd ic g eps none lnc hid).conv2.in_channels = ic
    ∧ (SPADEResBlock.init sd ic g eps none lnc hid).conv2.out_channels = ic := by
  refine ⟨rfl, ?_, rfl, rfl, rfl⟩
  have hsc : (SPADEResBlock.init sd ic g eps none lnc hid).nin_shortcut
      = (if ic ≠ ic then some (⟨sd, ic, ic, 1, 1, 0⟩ : ConvDesc) else none) := rfl
  rw [hsc, if_neg (not_not_intro rfl)]

/-- C10: `norm2` is parameterised with the *raw* `out_channels` argument as
its normalised-channel count `norm_nc`, not with the resolved
`self.out_channels`; in particular, when `out_channels` is absent (`None`),
`norm2` receives `None`, even though `conv1`, `conv2` and the shortcut all
use the resolved width `in_channels`. -/
theorem SPADEResBlock_norm2_raw_out_channels (sd ic g : ℕ) (eps : ℚ)
    (oc : Option ℕ) (lnc hid : ℕ) :
    (SPADEResBlock.init sd ic g eps oc lnc hid).norm2.norm_nc = oc
    ∧ (SPADEResBlock.init sd ic g eps oc lnc hid).norm1.norm_nc = some ic
    ∧ (SPADEResBlock.init sd ic g eps oc lnc hid).conv1.out_channels = oc.getD ic
    ∧ (SPADEResBlock.init sd ic g eps oc lnc hid).conv2.in_channels = oc.getD ic
    ∧ (SPADEResBlock.init sd ic g eps oc lnc hid).conv2.out_channels = oc.getD ic
    ∧ (oc = none →
        (SPADEResBlock.init sd ic g eps oc lnc hid).norm2.norm_nc = none
        ∧ (SPADEResBlock.init sd ic g eps oc lnc hid).conv1.out_channels = ic
        ∧ (SPADEResBlock.init sd ic g eps oc lnc hid).nin_shortcut = none)
    ∧ (∀ c : ConvDesc, (SPADEResBlock.init sd ic g eps oc lnc hid).nin_shortcut = some c →
        c.in_channels = ic ∧ c.out_channels = oc.getD ic) := by
  refine ⟨rfl, rfl, rfl, rfl, rfl, ?_, ?_⟩
  · intro h
    subst h
    exact ⟨rfl, rfl,
      (SPADEResBlock_none_out_channels_fallback sd ic g eps lnc hid).2.1⟩
  · intro c hc
    have hsc : (SPADEResBlock.init sd ic g eps oc lnc hid).nin_shortcut
        = (if ic ≠ oc.getD ic then some (⟨sd, ic, oc.getD ic, 1, 1, 0⟩ : ConvDesc) else none) :=
      rfl
    rw [hsc] at hc
    by_cases h : ic ≠ oc.getD ic
    · rw [if_pos h] at hc
      cases hc
      exact ⟨rfl, rfl⟩
    · rw [if_neg h] at hc
      exact Option.noConfusion hc

/-- Witness for C10 in the `None` case. -/
theorem SPADEResBlock_norm2_raw_out_channels_witness :
    (SPADEResBlock.init 2 32 32 (1/1000000) none 2 128).norm2.norm_nc = none
    ∧ (SPADEResBlock.init 2 32 32 (1/1000000) none 2 128).conv1.out_channels = 32
    ∧ (SPADEResBlock.init 2 32 32 (1/1000000) none 2 128).nin_shortcut = none :=
  (SPADEResBlock_norm2_raw_out_channels 2 32 32 (1/1000000) none 2 128).2.2.2.2.2.1 rfl

/-- The `num_res_blocks` argument of `SPADEAutoencoderKL.__init__`:
`Sequence[int] | int`. -/
inductive NumResBlocks where
  | int (n : ℕ)
  | seq (l : List ℕ)
deriving DecidableEq

/-- `ensure_tuple_rep(n, len)`: broadcast a single integer to a tuple of the
given length. -/
def ensureTupleRep (n len : ℕ) : List ℕ := List.replicate len n

/-- The test `any((out_channel % norm_num_groups) != 0 for out_channel in
channels)` of the first validation.  Python's `%` raises `ZeroDivisionError`
when `norm_num_groups` is zero, so with a nonempty schedule and a zero group
count the test itself raises before producing a boolean (`none` models the
raise); with an empty schedule the generator is exhausted without evaluating
`%`, and `any` returns `False`. -/
def divisibilityCheck (channels : List ℕ) (groups : ℕ) : Option Bool :=
  match channels with
  | [] => some false
  | _ :: _ =>
    if groups = 0 then none
    else some (channels.any (fun c => c % groups ≠ 0))

/-- `SPADEAutoencoderKL.__init__` up to the construction of the decoder:
the divisibility test (which can itself raise, see `divisibilityCheck`), the
three `ValueError` checks (`none` models a raised exception), the broadcast
of an integer `num_res_blocks`, then the assembly of the `SPADEDecoder`
sub-module (whose own list indexing can raise).  The `Encoder` and the
quantisation convolutions are external or unconditionally constructible and
add no failure mode of their own within the sources here. -/
def SPADEAutoencoderKL.initModel (sd label_nc _inCh oc : ℕ) (nrb : NumResBlocks)
    (channels : List ℕ) (attn : List Bool) (latent groups : ℕ) (eps : ℚ)
    (wDec : Bool) (hid : ℕ) : Option (List Block) := do
  let anyBad ← divisibilityCheck channels groups
  if anyBad then none
  else if channels.length ≠ attn.length then none
  else
    let nrbL := match nrb with
      | NumResBlocks.int n => ensureTupleRep n channels.length
      | NumResBlocks.seq l => l
    if nrbL.length ≠ channels.length then none
    else SPADEDecoder.build ⟨sd, groups, eps, label_nc, hid⟩ channels latent oc nrbL attn wDec

/-- C3 counterexample: with an empty channel schedule (and equally empty
attention schedule, integer `num_res_blocks`), none of the three stated
conditions holds — no channel violates divisibility, the schedule lengths
agree, and `num_res_blocks` is broadcast — yet construction still fails,
because `reversed(channels)[0]` raises in `SPADEDecoder.__init__`. -/
theorem SPADEAutoencoderKL_construction_empty_channels_cex :
    SPADEAutoencoderKL.initModel 2 3 1 1 (NumResBlocks.int 2) [] [] 3 32 (1/1000000) true 128
        = none
    ∧ ([] : List ℕ).any (fun c => c % 32 ≠ 0) = false
    ∧ ([] : List ℕ).length = ([] : List Bool).length := by
  refine ⟨rfl, rfl, rfl⟩

theorem initModel_nil_eq_none (sd label_nc ic oc : ℕ) (nrb : NumResBlocks)
    (attn : List Bool) (latent groups : ℕ) (eps : ℚ) (wDec : Bool) (hid : ℕ) :
    SPADEAutoencoderKL.initModel sd label_nc ic oc nrb [] attn latent groups eps wDec hid
      = none := by
  rw [SPADEAutoencoderKL.initModel.eq_def]
  cases nrb with
  | int n => simp [divisibilityCheck, ensureTupleRep, SPADEDecoder.build]
  | seq l => simp [divisibilityCheck, SPADEDecoder.build]

/-- C3 (amended): construction fails exactly when (0) `norm_num_groups` is
zero while the channel schedule is nonempty (the divisibility test itself
raises `ZeroDivisionError`), or (1) `norm_num_groups` is nonzero and some
entry of `channels` is not divisible by it, or (2) the channel and attention
schedules have different lengths, or (3) `num_res_blocks` is a sequence whose
length differs from the channel schedule's, or (4) the channel schedule is
empty.  When `num_res_blocks` is a single integer it is broadcast by
`ensure_tuple_rep` to a tuple of length `len(channels)`, so check (3) cannot
fail for it.  All these failures happen at construction time. -/
theorem SPADEAutoencoderKL_construction_fails_iff (sd label_nc ic oc : ℕ)
    (nrb : NumResBlocks) (channels : List ℕ) (attn : List Bool)
    (latent groups : ℕ) (eps : ℚ) (wDec : Bool) (hid : ℕ) :
    (SPADEAutoencoderKL.initModel sd label_nc ic oc nrb channels attn latent groups eps
        wDec hid = none
      ↔ ((channels ≠ [] ∧ groups = 0)
          ∨ (groups ≠ 0 ∧ channels.any (fun c => c % groups ≠ 0) = true)
          ∨ channels.length ≠ attn.length
          ∨ (∃ l, nrb = NumResBlocks.seq l ∧ l.length ≠ channels.length)
          ∨ channels = []))
    ∧ (∀ n, (ensureTupleRep n channels.length).length = channels.length) := by
  refine ⟨?_, fun n => by simp [ensureTupleRep]⟩
  cases hch : channels with
  | nil =>
    exact iff_of_true
      (initModel_nil_eq_none sd label_nc ic oc nrb attn latent groups eps wDec hid)
      (Or.inr (Or.inr (Or.inr (Or.inr rfl))))
  | cons c0 cs =>
    by_cases hg : groups = 0
    · have hnone : SPADEAutoencoderKL.initModel sd label_nc ic oc nrb (c0 :: cs) attn
          latent groups eps wDec hid = none := by
        rw [SPADEAutoencoderKL.initModel.eq_def]
        simp [divisibilityCheck, hg]
      exact iff_of_true hnone (Or.inl ⟨List.cons_ne_nil c0 cs, hg⟩)
    · have hdc : divisibilityCheck (c0 :: cs) groups
          = some ((c0 :: cs).any (fun c => c % groups ≠ 0)) := by
        simp [divisibilityCheck, hg]
      by_cases h1 : (c0 :: cs).any (fun c => c % groups ≠ 0) = true
      · have hnone : SPADEAutoencoderKL.initModel sd label_nc ic oc nrb (c0 :: cs) attn
            latent groups eps wDec hid = none := by
          rw [SPADEAutoencoderKL.initModel.eq_def, hdc, h1]
          rfl
        exact iff_of_true hnone (Or.inr (Or.inl ⟨hg, h1⟩))
      · have h1f : (c0 :: cs).any (fun c => c % groups ≠ 0) = false := by
          simpa using h1
        by_cases h2 : (c0 :: cs).length ≠ attn.length
        · have hnone : SPADEAutoencoderKL.initModel sd label_nc ic oc nrb (c0 :: cs) attn
              latent groups eps wDec hid = none := by
            rw [SPADEAutoencoderKL.initModel.eq_def, hdc, h1f]
            show (if (c0 :: cs).length ≠ attn.length then none else _) = none
            rw [if_pos h2]
          exact iff_of_true hnone (Or.inr (Or.inr (Or.inl h2)))
        · cases nrb with
          | int n =>
            have hb := build_eq_claimed (⟨sd, groups, eps, label_nc, hid⟩ : DecoderParams)
              (c0 :: cs) latent oc (ensureTupleRep n (c0 :: cs).length) attn wDec
              (List.cons_ne_nil c0 cs) (not_not.mp h2).symm (by simp [ensureTupleRep])
            have hsome : SPADEAutoencoderKL.initModel sd label_nc ic oc (NumResBlocks.int n)
                (c0 :: cs) attn latent groups eps wDec hid
                = some (claimedDecoderBlocks ⟨sd, groups, eps, label_nc, hid⟩ (c0 :: cs)
                    latent oc (ensureTupleRep n (c0 :: cs).length) attn wDec) := by
              rw [SPADEAutoencoderKL.initModel.eq_def, hdc, h1f]
              show (if (c0 :: cs).length ≠ attn.length then none
                else if (ensureTupleRep n (c0 :: cs).length).length ≠ (c0 :: cs).length
                  then none
                else SPADEDecoder.build ⟨sd, groups, eps, label_nc, hid⟩ (c0 :: cs) latent oc
                  (ensureTupleRep n (c0 :: cs).length) attn wDec) = _
              rw [if_neg h2, if_neg (not_not_intro (by simp [ensureTupleRep])), hb]
            refine iff_of_false (by rw [hsome]; exact fun hc => Option.noConfusion hc) ?_
            rintro (⟨_, hg0⟩ | ⟨_, h1t⟩ | h2t | ⟨l2, hl, _⟩ | h4)
            · exact hg hg0
            · exact h1 h1t
            · exact h2 h2t
            · exact NumResBlocks.noConfusion hl
            · exact List.cons_ne_nil c0 cs h4
          | seq l =>
            by_cases h3 : l.length ≠ (c0 :: cs).length
            · have hnone : SPADEAutoencoderKL.initModel sd label_nc ic oc
                  (NumResBlocks.seq l) (c0 :: cs) attn latent groups eps wDec hid
                  = none := by
                rw [SPADEAutoencoderKL.initModel.eq_def, hdc, h1f]
                show (if (c0 :: cs).length ≠ attn.length then none
                  else if l.length ≠ (c0 :: cs).length then none
                  else SPADEDecoder.build ⟨sd, groups, eps, label_nc, hid⟩ (c0 :: cs) latent
                    oc l attn wDec) = none
                rw [if_neg h2, if_pos h3]
              exact iff_of_true hnone (Or.inr (Or.inr (Or.inr (Or.inl ⟨l, rfl, h3⟩))))
            · have hb := build_eq_claimed (⟨sd, groups, eps, label_nc, hid⟩ : DecoderParams)
                (c0 :: cs) latent oc l attn wDec (List.cons_ne_nil c0 cs)
                (not_not.mp h2).symm (not_not.mp h3)
              have hsome : SPADEAutoencoderKL.initModel sd label_nc ic oc
                  (NumResBlocks.seq l) (c0 :: cs) attn latent groups eps wDec hid
                  = some (claimedDecoderBlocks ⟨sd, groups, eps, label_nc, hid⟩ (c0 :: cs)
                      latent oc l attn wDec) := by
                rw [SPADEAutoencoderKL.initModel.eq_def, hdc, h1f]
                show (if (c0 :: cs).length ≠ attn.length then none
                  else if l.length ≠ (c0 :: cs).length then none
                  else SPADEDecoder.build ⟨sd, groups, eps, label_nc, hid⟩ (c0 :: cs) latent
                    oc l attn wDec) = _
                rw [if_neg h2, if_neg (not_not_intro (not_not.mp h3)), hb]
              refine iff_of_false (by rw [hsome]; exact fun hc => Option.noConfusion hc) ?_
              rintro (⟨_, hg0⟩ | ⟨_, h1t⟩ | h2t | ⟨l2, hl, hlen⟩ | h4)
              · exact hg hg0
              · exact h1 h1t
              · exact h2 h2t
              · cases hl
                exact hlen (not_not.mp h3)
              · exact List.cons_ne_nil c0 cs h4

/-- Witness for C3: the amended equivalence yields the empty-schedule
failure through its fifth disjunct. -/
theorem SPADEAutoencoderKL_construction_fails_iff_witness :
    SPADEAutoencoderKL.initModel 2 3 1 1 (NumResBlocks.int 2) [] [] 3 32 (1/1000000)
        true 128 = none :=
  ((SPADEAutoencoderKL_construction_fails_iff 2 3 1 1 (NumResBlocks.int 2) [] [] 3 32
    (1/1000000) true 128).1).mpr (Or.inr (Or.inr (Or.inr (Or.inr rfl))))

/-- The shape of a tensor: batch size, channel count, per-dimension spatial
extents. -/
structure TShape where
  batch : ℕ
  channels : ℕ
  spatial : List ℕ
deriving DecidableEq

/-- Output extent of a spatial convolution along one dimension:
`(n + 2 * padding - kernel) / stride + 1` (the standard formula of the
external `Convolution` primitive). -/
def convOutExtent (kernel stride padding n : ℕ) : ℕ :=
  (n + 2 * padding - kernel) / stride + 1

/-- Output shape of a convolution descriptor. -/
def ConvDesc.outShape (c : ConvDesc) (s : TShape) : TShape :=
  ⟨s.batch, c.out_channels, s.spatial.map (convOutExtent c.kernel_size c.strides c.padding)⟩

/-- Output shape of one decoder block: a `SPADEResBlock` transforms shape
through its two convolutions (its normalisations and activation are
shape-preserving, and the residual sum has the shape of the main path); a
`SpatialAttentionBlock` and a `GroupNorm` preserve shape; an `Upsample`
stage multiplies every spatial extent by its scale factor and then applies
its post-convolution. -/
def Block.outShape (b : Block) (s : TShape) : TShape :=
  match b with
  | Block.conv c => c.outShape s
  | Block.spadeRes r => r.conv2.outShape (r.conv1.outShape s)
  | Block.attn _ => s
  | Block.upsample u =>
    u.post_conv.outShape ⟨s.batch, s.channels, s.spatial.map (fun n => n * u.scale_factor)⟩
  | Block.groupNorm _ => s

/-- Output shape of a block sequence, applied in order. -/
def decoderOutShape (blocks : List Block) (s : TShape) : TShape :=
  blocks.foldl (fun a b => b.outShape a) s

/-- Modelled from the spec: the `Encoder`
(`monai.networks.nets.autoencoderkl.Encoder`) is not part of the sources
here.  Per the spec it is a standard convolutional downsampling stack whose
channel progression the decoder mirrors in reverse; mirroring the decoder's
one upsampling stage per non-final level, it halves every spatial extent once
per non-final resolution level and outputs `latent_channels` channels. -/
def encoderOutShape (numLevels latent : ℕ) (s : TShape) : TShape :=
  ⟨s.batch, latent, s.spatial.map (fun n => n / 2 ^ (numLevels - 1))⟩

/-- The 1x1, stride-1, padding-0 quantisation convolutions
(`quant_conv_mu`, `quant_conv_log_sigma`, `post_quant_conv`). -/
def quantConvDesc (sd latent : ℕ) : ConvDesc := ⟨sd, latent, latent, 1, 1, 0⟩

/-- Shape of `encode(x)`'s mean (and, identically, sigma): encoder followed
by a 1x1 quantisation convolution. -/
def SPADEAutoencoderKL.encodeShape (sd numLevels latent : ℕ) (s : TShape) : TShape :=
  (quantConvDesc sd latent).outShape (encoderOutShape numLevels latent s)

/-- Shape of `decode(z, seg)`: 1x1 post-quantisation convolution followed by
the decoder blocks. -/
def SPADEAutoencoderKL.decodeShape (sd latent : ℕ) (blocks : List Block) (s : TShape) :
    TShape :=
  decoderOutShape blocks ((quantConvDesc sd latent).outShape s)

theorem map_pres (f : ℕ → ℕ) (sp : List ℕ) (h : ∀ m ∈ sp, f m = m) : sp.map f = sp := by
  induction sp with
  | nil => rfl
  | cons a l ih =>
    rw [List.map_cons, h a (by simp), ih (fun m hm => h m (by simp [hm]))]

theorem convOutExtent_three (n : ℕ) (h : 1 ≤ n) : convOutExtent 3 1 1 n = n := by
  rw [convOutExtent]
  omega

theorem convOutExtent_one (n : ℕ) (h : 1 ≤ n) : convOutExtent 1 1 0 n = n := by
  rw [convOutExtent]
  omega

theorem pos_map_mul (sp : List ℕ) (k : ℕ) (hk : 1 ≤ k) (h : ∀ m ∈ sp, 1 ≤ m) :
    ∀ m ∈ sp.map (fun n => n * k), 1 ≤ m := by
  intro m hm
  rw [List.mem_map] at hm
  obtain ⟨n, hn, rfl⟩ := hm
  exact Nat.mul_pos (h n hn) hk

theorem decoderOutShape_cons (b : Block) (bs : List Block) (s : TShape) :
    decoderOutShape (b :: bs) s = decoderOutShape bs (b.outShape s) := rfl

theorem decoderOutShape_append (l1 l2 : List Block) (s : TShape) :
    decoderOutShape (l1 ++ l2) s = decoderOutShape l2 (decoderOutShape l1 s) := by
  rw [decoderOutShape, decoderOutShape, decoderOutShape, List.foldl_append]

theorem conv3At_outShape (P : DecoderParams) (cin cout B C : ℕ) (sp : List ℕ)
    (h : ∀ m ∈ sp, 1 ≤ m) :
    (conv3At P cin cout).outShape ⟨B, C, sp⟩ = ⟨B, cout, sp⟩ := by
  have h1 : sp.map (convOutExtent 3 1 1) = sp :=
    map_pres _ sp (fun m hm => convOutExtent_three m (h m hm))
  show (⟨B, cout, sp.map (convOutExtent 3 1 1)⟩ : TShape) = ⟨B, cout, sp⟩
  rw [h1]

theorem resBlockAt_outShape (P : DecoderParams) (cin cout B C : ℕ) (sp : List ℕ)
    (h : ∀ m ∈ sp, 1 ≤ m) :
    (resBlockAt P cin cout).outShape ⟨B, C, sp⟩ = ⟨B, cout, sp⟩ := by
  have h1 : sp.map (convOutExtent 3 1 1) = sp :=
    map_pres _ sp (fun m hm => convOutExtent_three m (h m hm))
  show (⟨B, cout, (sp.map (convOutExtent 3 1 1)).map (convOutExtent 3 1 1)⟩ : TShape)
      = ⟨B, cout, sp⟩
  rw [h1, h1]

theorem upsampleAt_outShape (P : DecoderParams) (c B C : ℕ) (sp : List ℕ)
    (h : ∀ m ∈ sp, 1 ≤ m) :
    (upsampleAt P c).outShape ⟨B, C, sp⟩ = ⟨B, c, sp.map (fun m => m * 2)⟩ := by
  have h1 : (sp.map (fun m => m * 2)).map (convOutExtent 3 1 1) = sp.map (fun m => m * 2) :=
    map_pres _ _ (fun m hm => convOutExtent_three m (pos_map_mul sp 2 (by norm_num) h m hm))
  show (⟨B, c, (sp.map (fun m => m * 2)).map (convOutExtent 3 1 1)⟩ : TShape)
      = ⟨B, c, sp.map (fun m => m * 2)⟩
  rw [h1]

theorem quantConv_outShape (sd latent B C : ℕ) (sp : List ℕ) (h : ∀ m ∈ sp, 1 ≤ m) :
    (quantConvDesc sd latent).outShape ⟨B, C, sp⟩ = ⟨B, latent, sp⟩ := by
  have h1 : sp.map (convOutExtent 1 1 0) = sp :=
    map_pres _ sp (fun m hm => convOutExtent_one m (h m hm))
  show (⟨B, latent, sp.map (convOutExtent 1 1 0)⟩ : TShape) = ⟨B, latent, sp⟩
  rw [h1]

theorem resLoop_shape (P : DecoderParams) (a : Bool) :
    ∀ (n cin cout B C : ℕ) (sp : List ℕ), (∀ m ∈ sp, 1 ≤ m) →
      decoderOutShape (resLoop P cin cout a n) ⟨B, C, sp⟩
        = ⟨B, if n = 0 then C else cout, sp⟩ := by
  intro n
  induction n with
  | zero => intro cin cout B C sp _; rfl
  | succ k ih =>
    intro cin cout B C sp h
    rw [resLoop, decoderOutShape_cons, resBlockAt_outShape P cin cout B C sp h,
      decoderOutShape_append]
    have hattn : decoderOutShape (if a then [attnAt P cout] else []) ⟨B, cout, sp⟩
        = ⟨B, cout, sp⟩ := by
      cases a with
      | false => rfl
      | true => rfl
    rw [hattn, ih cout cout B cout sp h, ite_self, if_neg (Nat.succ_ne_zero k)]

theorem buildLevels_shape (P : DecoderParams) :
    ∀ (revC : List ℕ) (revA : List Bool) (revN : List ℕ) (w : ℕ) (bs : List Block)
      (fw B C : ℕ) (sp : List ℕ),
      buildLevels P revC revA revN w = some (bs, fw) →
      (∀ m ∈ sp, 1 ≤ m) →
      ∃ Cf, decoderOutShape bs ⟨B, C, sp⟩
        = ⟨B, Cf, sp.map (fun m => m * 2 ^ (revC.length - 1))⟩ := by
  intro revC
  induction revC with
  | nil =>
    intro revA revN w bs fw B C sp heq hsp
    have hbs : bs = [] := by
      simp [buildLevels] at heq
      exact heq.1
    subst hbs
    refine ⟨C, ?_⟩
    have h1 : sp.map (fun m => m * 2 ^ (List.length ([] : List ℕ) - 1)) = sp :=
      map_pres _ sp (fun m _ => by simp)
    rw [h1]
    rfl
  | cons c rest ih =>
    intro revA revN w bs fw B C sp heq hsp
    cases revA with
    | nil => simp [buildLevels] at heq
    | cons a as =>
    cases revN with
    | nil => simp [buildLevels] at heq
    | cons n ns =>
    cases rest with
    | nil =>
      have hstep : buildLevels P [c] (a :: as) (n :: ns) w
          = some (resLoop P w c a n, if n = 0 then w else c) := rfl
      rw [hstep] at heq
      have hbs : bs = resLoop P w c a n := by
        cases heq
        rfl
      subst hbs
      refine ⟨if n = 0 then C else c, ?_⟩
      have h1 : sp.map (fun m => m * 2 ^ (List.length [c] - 1)) = sp :=
        map_pres _ sp (fun m _ => by simp)
      rw [h1, resLoop_shape P a n w c B C sp hsp]
    | cons r rs =>
      have hstep : buildLevels P (c :: r :: rs) (a :: as) (n :: ns) w
          = (buildLevels P (r :: rs) as ns c).bind
              (fun p => some (resLoop P w c a n
                ++ upsampleAt P (if n = 0 then w else c) :: p.1, p.2)) := rfl
      rw [hstep] at heq
      cases hin : buildLevels P (r :: rs) as ns c with
      | none =>
        rw [hin] at heq
        exact Option.noConfusion heq
      | some p =>
        rw [hin] at heq
        have hbs : bs = resLoop P w c a n
            ++ upsampleAt P (if n = 0 then w else c) :: p.1 := by
          cases heq
          rfl
        subst hbs
        have hpos2 : ∀ m ∈ sp.map (fun m => m * 2), 1 ≤ m :=
          pos_map_mul sp 2 (by norm_num) hsp
        obtain ⟨Cf, hCf⟩ := ih as ns c p.1 p.2 B
          (if n = 0 then w else c) (sp.map (fun m => m * 2)) (by rw [hin]) hpos2
        refine ⟨Cf, ?_⟩
        rw [decoderOutShape_append, resLoop_shape P a n w c B C sp hsp,
          decoderOutShape_cons,
          upsampleAt_outShape P (if n = 0 then w else c) B (if n = 0 then C else c) sp hsp,
          hCf]
        have hcomp : (sp.map (fun m => m * 2)).map
              (fun m => m * 2 ^ ((r :: rs).length - 1))
            = sp.map (fun m => m * 2 ^ ((c :: r :: rs).length - 1)) := by
          rw [List.map_map]
          apply List.map_congr_left
          intro m _
          show m * 2 * 2 ^ ((r :: rs).length - 1) = m * 2 ^ ((c :: r :: rs).length - 1)
          have hlen : ((c :: r :: rs).length - 1) = ((r :: rs).length - 1) + 1 := by
            simp
          rw [hlen, pow_succ]
          ring
        rw [hcomp]

theorem build_shape (P : DecoderParams) (channels : List ℕ) (ic oc : ℕ)
    (nrb : List ℕ) (attn : List Bool) (wNL : Bool) (bs : List Block)
    (B C : ℕ) (sp : List ℕ)
    (hb : SPADEDecoder.build P channels ic oc nrb attn wNL = some bs)
    (hsp : ∀ m ∈ sp, 1 ≤ m) :
    decoderOutShape bs ⟨B, C, sp⟩
      = ⟨B, oc, sp.map (fun m => m * 2 ^ (channels.length - 1))⟩ := by
  cases hr : channels.reverse with
  | nil =>
    rw [SPADEDecoder.build, hr] at hb
    exact Option.noConfusion hb
  | cons c0 rest =>
    rw [SPADEDecoder.build, hr] at hb
    have hb2 : (buildLevels P (c0 :: rest) attn.reverse nrb.reverse c0).bind
        (fun q => some (conv3At P ic c0
          :: ((if wNL then [resBlockAt P c0 c0, attnAt P c0, resBlockAt P c0 c0] else [])
            ++ q.1 ++ [Block.groupNorm ⟨P.norm_num_groups, q.2, P.norm_eps, true⟩,
              conv3At P q.2 oc]))) = some bs := hb
    cases hbl : buildLevels P (c0 :: rest) attn.reverse nrb.reverse c0 with
    | none =>
      rw [hbl] at hb2
      exact Option.noConfusion hb2
    | some q =>
      rw [hbl, Option.some_bind] at hb2
      have hbs : bs = conv3At P ic c0
          :: ((if wNL then [resBlockAt P c0 c0, attnAt P c0, resBlockAt P c0 c0] else [])
            ++ q.1 ++ [Block.groupNorm ⟨P.norm_num_groups, q.2, P.norm_eps, true⟩,
              conv3At P q.2 oc]) := by
        cases hb2
        rfl
      subst hbs
      have hlen : channels.length = (c0 :: rest).length := by
        rw [← List.length_reverse channels, hr]
      obtain ⟨Cf, hCf⟩ := buildLevels_shape P (c0 :: rest) attn.reverse nrb.reverse c0
        q.1 q.2 B c0 sp hbl hsp
      have hnl : decoderOutShape
          (if wNL then [resBlockAt P c0 c0, attnAt P c0, resBlockAt P c0 c0] else [])
          ⟨B, c0, sp⟩ = ⟨B, c0, sp⟩ := by
        cases wNL with
        | false => rfl
        | true =>
          show decoderOutShape [resBlockAt P c0 c0, attnAt P c0, resBlockAt P c0 c0]
            ⟨B, c0, sp⟩ = ⟨B, c0, sp⟩
          rw [decoderOutShape_cons, resBlockAt_outShape P c0 c0 B c0 sp hsp,
            decoderOutShape_cons]
          show decoderOutShape [resBlockAt P c0 c0] ⟨B, c0, sp⟩ = ⟨B, c0, sp⟩
          rw [decoderOutShape_cons, resBlockAt_outShape P c0 c0 B c0 sp hsp]
          rfl
      have hposE : ∀ m ∈ sp.map (fun m => m * 2 ^ ((c0 :: rest).length - 1)), 1 ≤ m :=
        pos_map_mul sp _ (Nat.one_le_two_pow) hsp
      rw [decoderOutShape_cons, conv3At_outShape P ic c0 B C sp hsp,
        decoderOutShape_append, decoderOutShape_append, hnl, hCf,
        decoderOutShape_cons]
      show decoderOutShape [conv3At P q.2 oc]
          ⟨B, Cf, sp.map (fun m => m * 2 ^ ((c0 :: rest).length - 1))⟩
        = ⟨B, oc, sp.map (fun m => m * 2 ^ (channels.length - 1))⟩
      rw [decoderOutShape_cons,
        conv3At_outShape P q.2 oc B Cf _ hposE, hlen]
      rfl

/-- C9 counterexample: in the end-to-end scenario (`spatial_dims=2`,
`channels=(32,64)`, `latent_channels=3`, input spatial extents 64x64), the
encode path yields mean/sigma of shape `(1,3,32,32)` — there is only one
downsampling level for a two-entry channel schedule — not `(1,3,16,16)`;
moreover the decoder assembled from the sources has exactly one upsampling
stage, so a `(1,3,16,16)` latent would decode to `(1,1,32,32)`, not
`(1,1,64,64)`: the claimed shape pair is impossible. -/
theorem SPADEAutoencoderKL_scenario_shape_cex :
    SPADEAutoencoderKL.encodeShape 2 2 3 ⟨1, 1, [64, 64]⟩ ≠ ⟨1, 3, [16, 16]⟩
    ∧ SPADEAutoencoderKL.encodeShape 2 2 3 ⟨1, 1, [64, 64]⟩ = ⟨1, 3, [32, 32]⟩
    ∧ (SPADEDecoder.build ⟨2, 32, 1/1000000, 2, 128⟩ [32, 64] 3 1 [2, 2] [false, false]
          true).map
        (fun bs => SPADEAutoencoderKL.decodeShape 2 3 bs ⟨1, 3, [16, 16]⟩)
      = some ⟨1, 1, [32, 32]⟩ :=
  ⟨by decide, by decide, by decide⟩

/-- C9 (amended): for every validly constructed model (nonempty channel
schedule, matching schedule lengths, at least one res block per level — so
that the assembled convolution widths chain consistently — and every spatial
extent positive and divisible by `2 ^ (len(channels) - 1)`),
`decode(encode(x)[0], seg)` preserves the batch size and spatial shape of
`x` and has channel count `out_channels`.  In the end-to-end scenario
(`spatial_dims=2, channels=(32,64), latent_channels=3`, input
`(1,1,64,64)`), the reconstruction has shape `(1,1,64,64)` and mean/sigma
have shape `(1,3,32,32)`. -/
theorem SPADEAutoencoderKL_shape_spec (P : DecoderParams) (channels : List ℕ)
    (latent oc : ℕ) (nrb : List ℕ) (attn : List Bool) (wNL : Bool)
    (B C : ℕ) (sp : List ℕ)
    (hne : channels ≠ []) (ha : attn.length = channels.length)
    (hn : nrb.length = channels.length) (_hpos : ∀ n ∈ nrb, 1 ≤ n)
    (hsp : ∀ m ∈ sp, 1 ≤ m ∧ 2 ^ (channels.length - 1) ∣ m) :
    (SPADEDecoder.build P channels latent oc nrb attn wNL).map
        (fun bs => SPADEAutoencoderKL.decodeShape P.spatial_dims latent bs
          (SPADEAutoencoderKL.encodeShape P.spatial_dims channels.length latent ⟨B, C, sp⟩))
      = some ⟨B, oc, sp⟩
    ∧ (SPADEDecoder.build ⟨2, 32, 1/1000000, 2, 128⟩ [32, 64] 3 1 [2, 2] [false, false]
          true).map
        (fun bs => (SPADEAutoencoderKL.decodeShape 2 3 bs
            (SPADEAutoencoderKL.encodeShape 2 2 3 ⟨1, 1, [64, 64]⟩),
          SPADEAutoencoderKL.encodeShape 2 2 3 ⟨1, 1, [64, 64]⟩))
      = some (⟨1, 1, [64, 64]⟩, ⟨1, 3, [32, 32]⟩) := by
  constructor
  · have hb := build_eq_claimed P channels latent oc nrb attn wNL hne ha hn
    have hdpos : 0 < 2 ^ (channels.length - 1) := pow_pos (by norm_num) _
    have hspD : ∀ m ∈ sp.map (fun n => n / 2 ^ (channels.length - 1)), 1 ≤ m := by
      intro m hm
      rw [List.mem_map] at hm
      obtain ⟨n, hn2, rfl⟩ := hm
      exact (Nat.one_le_div_iff hdpos).mpr (Nat.le_of_dvd (hsp n hn2).1 (hsp n hn2).2)
    have henc : SPADEAutoencoderKL.encodeShape P.spatial_dims channels.length latent
        ⟨B, C, sp⟩ = ⟨B, latent, sp.map (fun n => n / 2 ^ (channels.length - 1))⟩ :=
      quantConv_outShape P.spatial_dims latent B latent _ hspD
    have hdec : SPADEAutoencoderKL.decodeShape P.spatial_dims latent
        (claimedDecoderBlocks P channels latent oc nrb attn wNL)
        ⟨B, latent, sp.map (fun n => n / 2 ^ (channels.length - 1))⟩ = ⟨B, oc, sp⟩ := by
      rw [SPADEAutoencoderKL.decodeShape,
        quantConv_outShape P.spatial_dims latent B latent _ hspD,
        build_shape P channels latent oc nrb attn wNL _ B latent _ hb hspD]
      have hcancel : (sp.map (fun n => n / 2 ^ (channels.length - 1))).map
          (fun m => m * 2 ^ (channels.length - 1)) = sp := by
        rw [List.map_map]
        apply map_pres
        intro m hm
        show m / 2 ^ (channels.length - 1) * 2 ^ (channels.length - 1) = m
        exact Nat.div_mul_cancel (hsp m hm).2
      rw [hcancel]
    rw [hb, Option.map_some', henc, hdec]
  · decide

/-- Witness for C9 at the end-to-end scenario configuration. -/
theorem SPADEAutoencoderKL_shape_spec_witness :
    (SPADEDecoder.build ⟨2, 32, 1/1000000, 2, 128⟩ [32, 64] 3 1 [2, 2] [false, false]
        true).map
      (fun bs => SPADEAutoencoderKL.decodeShape 2 3 bs
        (SPADEAutoencoderKL.encodeShape 2 2 3 ⟨1, 1, [64, 64]⟩))
      = some ⟨1, 1, [64, 64]⟩ :=
  (SPADEAutoencoderKL_shape_spec ⟨2, 32, 1/1000000, 2, 128⟩ [32, 64] 3 1 [2, 2]
    [false, false] true 1 1 [64, 64] (by decide) (by decide) (by decide) (by decide)
    (by decide)).1

end SpadeAEKL
